import Mathlib

/-!
Verification of the multi-wallet reward-claim scripts.

Shallow embedding of the repository's claim scripts:
* `src/hum/multiWalletClaim.js` — namespace `MultiWalletClaim`
* `src/unnamed/part_002` (the interactive multi-wallet claim script) — namespace `Part002`
plus the shared helpers (`formatEther`, shuffle, loaders).

The external blockchain is modelled as an environment supplying, for each
attempt, the outcome of each network call (`dailyRewardsAvailable` query,
`getFeeData`, the `claimReward` submission, and `tx.wait`), each either a
value or a raised error message.  Durable log files are modelled as lists
of entries returned in the trace.  Wall-clock time is modelled as
milliseconds since the epoch (a `Nat`); `Date.setHours(h + k)` adds exactly
`k` hours in this model (daylight-saving shifts are not modelled).
-/

namespace Web3Claim

/-! ## Model of `ethers.formatEther`

`ethers.formatEther` renders a wei amount (an unsigned big integer here) as
a decimal string: the integer part in base ten, a dot, then the 18
fractional digits with trailing zeros removed but at least one digit kept.
-/

/-- The base-ten digit character for `n < 10`. -/
def digitChar (n : Nat) : Char := Char.ofNat (48 + n)

/-- Base-ten digit extraction with explicit fuel (structural recursion so
that concrete values reduce inside the kernel); `fuel > n` suffices. -/
def natToCharsAux : Nat → Nat → List Char
  | 0, _ => []
  | fuel + 1, n =>
    if n < 10 then [digitChar n]
    else natToCharsAux fuel (n / 10) ++ [digitChar (n % 10)]

/-- Base-ten digits of a natural number, most significant first. -/
def natToChars (n : Nat) : List Char := natToCharsAux (n + 1) n

/-- One ether (`10^18` wei). -/
def WEI : Nat := 10 ^ 18

/-- The 18 fractional digits of a wei remainder, zero-padded on the left. -/
def fracChars (m : Nat) : List Char :=
  List.replicate (18 - (natToChars m).length) '0' ++ natToChars m

/-- Remove trailing `'0'` characters. -/
def trimTrailingZeros (l : List Char) : List Char :=
  (l.reverse.dropWhile (fun c => c == '0')).reverse

/-- The fractional part printed by `formatEther`: trailing zeros removed,
but at least one digit kept. -/
def fracPart (m : Nat) : List Char :=
  if (trimTrailingZeros (fracChars m)).isEmpty then ['0']
  else trimTrailingZeros (fracChars m)

/-- Model of `ethers.formatEther` on unsigned wei amounts. -/
def formatEther (n : Nat) : String :=
  String.mk (natToChars (n / WEI) ++ '.' :: fracPart (n % WEI))

/-! ## Shared chain-call model -/

/-- Result of `provider.getFeeData()`. -/
structure FeeData where
  maxFeePerGas : Nat
  maxPriorityFeePerGas : Nat
deriving DecidableEq

/-- Result of `tx.wait()`. -/
structure Receipt where
  blockNumber : Nat
  hash : String
deriving DecidableEq

deriving instance DecidableEq for Except

/-- Outcomes of the four network calls one attempt of the claim loop can
make, each either a value or a raised error message. -/
structure AttemptEnv where
  query : Except String Nat
  feeData : Except String FeeData
  submit : Except String String
  confirm : Except String Receipt
deriving DecidableEq

/-- Deterministic account-address derivation from a private key
(`new ethers.Wallet(pk).address`), modelled as an opaque injection. -/
def addressOf (privateKey : String) : String := privateKey

/-- Model of `hasClaimedToday` from `multiWalletClaim.js`: query the available daily
reward, report "claimed" exactly when the formatted amount is the string
`"0.0"`; a raised query error is swallowed and reported as "not claimed". -/
def hasClaimedToday (query : Except String Nat) : Bool :=
  match query with
  | .ok n => formatEther n == "0.0"
  | .error _ => false

/-- Outcome of one iteration of a claim loop's `try` block. -/
inductive OnceResult where
  | skipped
  | success (txHash : String) (blockNumber : Nat)
  | thrown (msg : String)
deriving DecidableEq

/-- The tail of an attempt shared by both scripts: `getFeeData`, the
`claimReward` submission, and `tx.wait`, each raising on error.  The second
component counts `claimReward` submission calls made (the call counts as
made even when it raises). -/
def submitPhase (env : AttemptEnv) : OnceResult × Nat :=
  match env.feeData with
  | .error e => (.thrown e, 0)
  | .ok _ =>
    match env.submit with
    | .error e => (.thrown e, 1)
    | .ok tx =>
      match env.confirm with
      | .error e => (.thrown e, 1)
      | .ok r => (.success tx r.blockNumber, 1)

/-- One line of the append-only success log `claim_log.txt`. -/
structure SuccessEntry where
  timestamp : String
  walletIndex : Nat
  totalWallets : Nat
  address : String
  txHash : String
deriving DecidableEq

/-- One line of the append-only error log `claim_error_log.txt`. -/
structure ErrorEntry where
  timestamp : String
  walletIndex : Nat
  totalWallets : Nat
  message : String
  retryCount : Nat
deriving DecidableEq

/-- Full trace of one `claimReward` call: the returned boolean, the number
of loop iterations executed, the number of submission calls made, the log
lines appended, and the requested retry delays in order. -/
structure ClaimTrace where
  result : Bool
  attempts : Nat
  submitCalls : Nat
  successLog : List SuccessEntry
  errorLog : List ErrorEntry
  waits : List Nat
deriving DecidableEq

/-! ## `src/hum/multiWalletClaim.js` -/

namespace MultiWalletClaim

/-- Retry configuration of `multiWalletClaim.js` (the file also declares
`ESCALATION_FACTOR = 1`, but the retry loop never uses it). -/
structure Config where
  maxRetries : Nat
  retryDelay : Nat
deriving DecidableEq

/-- The `MAX_RETRIES` constant of `multiWalletClaim.js`. -/
def MAX_RETRIES : Nat := 10

/-- The `RETRY_DELAY` constant of `multiWalletClaim.js` (milliseconds). -/
def RETRY_DELAY : Nat := 0

/-- The `ESCALATION_FACTOR` constant of `multiWalletClaim.js`; declared in the
source but never read by the retry loop. -/
def ESCALATION_FACTOR : ℚ := 1

/-- The configuration the script actually runs with. -/
def config : Config := ⟨MAX_RETRIES, RETRY_DELAY⟩

/-- One iteration of the `try` block of `claimReward` in
`multiWalletClaim.js`: `hasClaimedToday` (which swallows query errors),
then — when not claimed — a second, unguarded `dailyRewardsAvailable`
call whose error propagates, then the submission phase.  Returns the
iteration outcome and the number of submission calls made. -/
def attemptOnce (env : AttemptEnv) : OnceResult × Nat :=
  if hasClaimedToday env.query then (.skipped, 0)
  else
    match env.query with
    | .error e => (.thrown e, 0)
    | .ok _ => submitPhase env

/-- The retry loop of `claimReward`, with `retryCount` the loop counter and
`fuel` the remaining iterations allowed by `retryCount <= MAX_RETRIES`
(the loop is entered with `fuel = maxRetries + 1`). -/
def claimLoop (cfg : Config) (ts : String) (idx total : Nat) (pk : String)
    (env : Nat → AttemptEnv) : Nat → Nat → ClaimTrace
  | _, 0 => ⟨false, 0, 0, [], [], []⟩
  | retryCount, fuel + 1 =>
    match attemptOnce (env retryCount) with
    | (.skipped, sc) => ⟨true, 1, sc, [], [], []⟩
    | (.success tx _, sc) =>
      ⟨true, 1, sc, [⟨ts, idx, total, addressOf pk, tx⟩], [], []⟩
    | (.thrown msg, sc) =>
      if retryCount ≥ cfg.maxRetries then
        ⟨false, 1, sc, [], [⟨ts, idx, total, msg, retryCount⟩], []⟩
      else
        let rest := claimLoop cfg ts idx total pk env (retryCount + 1) fuel
        ⟨rest.result, rest.attempts + 1, sc + rest.submitCalls,
          rest.successLog, rest.errorLog,
          if cfg.retryDelay > 0 then cfg.retryDelay :: rest.waits else rest.waits⟩

/-- Model of `claimReward` of `multiWalletClaim.js`: run the retry loop from
`retryCount = 0`. -/
def claimReward (cfg : Config) (ts : String) (idx total : Nat) (pk : String)
    (env : Nat → AttemptEnv) : ClaimTrace :=
  claimLoop cfg ts idx total pk env 0 (cfg.maxRetries + 1)

/-- The spec's tagged per-credential outcome. -/
inductive AttemptResult where
  | Success
  | SkippedAlreadyClaimed
  | Failure
deriving DecidableEq

/-- The classification `runClaimCycle` performs after each `claimReward`
call: on `true`, re-query `hasClaimedToday` to tell a skip from a real
success; on `false`, a failure. -/
def classify (claimOk : Bool) (recheck : Except String Nat) : AttemptResult :=
  if claimOk then
    if hasClaimedToday recheck then .SkippedAlreadyClaimed else .Success
  else .Failure

/-- Proxy selection of `runClaimCycle`:
`proxies.length > 0 ? proxies[i % proxies.length] : null`. -/
def selectProxy (proxies : List String) (i : Nat) : Option String :=
  if 0 < proxies.length then proxies.get? (i % proxies.length) else none

/-- One attempt as recorded in a cycle trace. -/
structure CycleAttempt where
  key : String
  proxy : Option String
  outcome : AttemptResult
deriving DecidableEq

/-- Result of one `runClaimCycle` call: the printed counters plus the full
attempt trace and the accumulated log lines. -/
structure CycleResult where
  successCount : Nat
  skippedCount : Nat
  failCount : Nat
  totalWallets : Nat
  attempts : List CycleAttempt
  successLog : List SuccessEntry
  errorLog : List ErrorEntry
deriving DecidableEq

/-- The `for` loop of `runClaimCycle` over the shuffled keys, carrying the
position `i`; `env` gives each credential's per-attempt chain behaviour and
`recheck` the result of the post-claim `dailyRewardsAvailable` re-query. -/
def cycleGo (cfg : Config) (ts : String) (total : Nat) (proxies : List String)
    (env : String → Nat → AttemptEnv) (recheck : String → Except String Nat) :
    List String → Nat → CycleResult
  | [], _ => ⟨0, 0, 0, total, [], [], []⟩
  | pk :: rest, i =>
    let proxy := selectProxy proxies i
    let r := claimReward cfg ts i total pk (env pk)
    let oc := classify r.result (recheck pk)
    let restR := cycleGo cfg ts total proxies env recheck rest (i + 1)
    ⟨(if oc = .Success then 1 else 0) + restR.successCount,
      (if oc = .SkippedAlreadyClaimed then 1 else 0) + restR.skippedCount,
      (if oc = .Failure then 1 else 0) + restR.failCount,
      total,
      ⟨pk, proxy, oc⟩ :: restR.attempts,
      r.successLog ++ restR.successLog,
      r.errorLog ++ restR.errorLog⟩

end MultiWalletClaim

/-! ## Fisher–Yates shuffle (`shuffleArray`, identical in both scripts)

The random draws `Math.floor(Math.random() * (i + 1))` are modelled by a
supplied function `js`, reduced modulo `i + 1` so that any `js` describes a
valid run. -/

/-- Swap positions `i` and `j` of a list (no-op on out-of-range indices,
which the shuffle never produces). -/
def listSwap {α : Type} (l : List α) (i j : Nat) : List α :=
  match l.get? i, l.get? j with
  | some a, some b => (l.set i b).set j a
  | _, _ => l

/-- The shuffle loop, running `i = n-1, n-2, …, 1`. -/
def fyAux {α : Type} (js : Nat → Nat) : Nat → List α → List α
  | 0, l => l
  | i + 1, l => fyAux js i (listSwap l (i + 1) (js (i + 1) % (i + 2)))

/-- Model of `shuffleArray` of both scripts (Fisher–Yates on a copy). -/
def shuffleArray {α : Type} (l : List α) (js : Nat → Nat) : List α :=
  fyAux js (l.length - 1) l

namespace MultiWalletClaim

/-- Model of `runClaimCycle` of `multiWalletClaim.js`: shuffle the keys, then run
the per-credential loop from position 0. -/
def runClaimCycle (cfg : Config) (ts : String) (privateKeys proxies : List String)
    (env : String → Nat → AttemptEnv) (recheck : String → Except String Nat)
    (js : Nat → Nat) : CycleResult :=
  let shuffled := shuffleArray privateKeys js
  cycleGo cfg ts shuffled.length proxies env recheck shuffled 0

/-- The `DAILY_CHECK_INTERVAL` constant (hours). -/
def DAILY_CHECK_INTERVAL : Nat := 1

/-- The `HOURS_TO_WAIT_AFTER_CLAIM` constant (hours). -/
def HOURS_TO_WAIT_AFTER_CLAIM : Nat := 23

/-- Milliseconds in one hour. -/
def msPerHour : Nat := 3600000

/-- Model of `calculateNextRunTime` of `multiWalletClaim.js`, with time in epoch
milliseconds: advance `now` by `HOURS_TO_WAIT_AFTER_CLAIM` hours when the
last cycle had a success, else by `DAILY_CHECK_INTERVAL` hours. -/
def calculateNextRunTime (lastRunStats : CycleResult) (now : Nat) : Nat :=
  if lastRunStats.successCount > 0 then
    now + HOURS_TO_WAIT_AFTER_CLAIM * msPerHour
  else
    now + DAILY_CHECK_INTERVAL * msPerHour

end MultiWalletClaim

/-! ## `src/unnamed/part_002` (interactive multi-wallet claim script) -/

namespace Part002

/-- Retry configuration of `part_002`; `escalationFactor` models the
floating-point constant `ESCALATION_FACTOR` as an exact rational. -/
structure Config where
  maxRetries : Nat
  retryDelay : Nat
  escalationFactor : ℚ
deriving DecidableEq

/-- The `MAX_RETRIES` constant of `part_002`. -/
def MAX_RETRIES : Nat := 5

/-- The `RETRY_DELAY` constant of `part_002` (milliseconds). -/
def RETRY_DELAY : Nat := 5000

/-- The `ESCALATION_FACTOR` constant of `part_002` (`1.5`, exact in binary
floating point). -/
def ESCALATION_FACTOR : ℚ := 3 / 2

/-- The configuration the script actually runs with. -/
def config : Config := ⟨MAX_RETRIES, RETRY_DELAY, ESCALATION_FACTOR⟩

/-- Model of `Math.floor(currentDelay * ESCALATION_FACTOR)`: the next retry delay.
JavaScript number arithmetic is modelled as exact rational arithmetic
(exact for the script's constants, whose products stay below `2^53`). -/
def nextDelay (currentDelay : Nat) (f : ℚ) : Nat :=
  (⌊(currentDelay : ℚ) * f⌋).toNat

/-- One iteration of the `try` block of `claimReward` in `part_002`: the
single `dailyRewardsAvailable` query sits inside its own `try`, so a query
error is logged and the attempt proceeds to the submission phase; a zero
formatted amount returns early. -/
def attemptOnce (env : AttemptEnv) : OnceResult × Nat :=
  match env.query with
  | .ok n => if formatEther n == "0.0" then (.skipped, 0) else submitPhase env
  | .error _ => submitPhase env

/-- The retry loop of `claimReward` in `part_002`, carrying `retryCount`
and the mutable `currentDelay`; on a caught error below the retry bound it
always sleeps `currentDelay` and then escalates it by the factor. -/
def claimLoop (cfg : Config) (ts : String) (idx total : Nat) (pk : String)
    (env : Nat → AttemptEnv) : Nat → Nat → Nat → ClaimTrace
  | _, _, 0 => ⟨false, 0, 0, [], [], []⟩
  | retryCount, currentDelay, fuel + 1 =>
    match attemptOnce (env retryCount) with
    | (.skipped, sc) => ⟨true, 1, sc, [], [], []⟩
    | (.success tx _, sc) =>
      ⟨true, 1, sc, [⟨ts, idx, total, addressOf pk, tx⟩], [], []⟩
    | (.thrown msg, sc) =>
      if retryCount ≥ cfg.maxRetries then
        ⟨false, 1, sc, [], [⟨ts, idx, total, msg, retryCount⟩], []⟩
      else
        let rest := claimLoop cfg ts idx total pk env (retryCount + 1)
          (nextDelay currentDelay cfg.escalationFactor) fuel
        ⟨rest.result, rest.attempts + 1, sc + rest.submitCalls,
          rest.successLog, rest.errorLog, currentDelay :: rest.waits⟩

/-- Model of `claimReward` of `part_002`: run the retry loop from `retryCount = 0`
with `currentDelay = RETRY_DELAY`. -/
def claimReward (cfg : Config) (ts : String) (idx total : Nat) (pk : String)
    (env : Nat → AttemptEnv) : ClaimTrace :=
  claimLoop cfg ts idx total pk env 0 cfg.retryDelay (cfg.maxRetries + 1)

end Part002

/-- The wait before retry `k + 1` under the `part_002` backoff: `d` for the
first retry, then floor-multiplication by the factor after each retry. -/
def backoffIter (d : Nat) (f : ℚ) : Nat → Nat
  | 0 => d
  | k + 1 => Part002.nextDelay (backoffIter d f k) f

/-! ## Loaders (`readPrivateKeys` / `readProxies`)

The file system is modelled as an optional file content: `none` for a
missing or unreadable file. -/

/-- The lines a loader produces from a file's text:
split on newline, trim each line, drop empty lines. -/
def loadLines (content : String) : List String :=
  ((content.splitOn "\n").map String.trim).filter (fun l => l.length > 0)

/-- Model of `readPrivateKeys` of `multiWalletClaim.js`: a missing or unreadable
credential file raises a configuration error. -/
def readPrivateKeys (file : Option String) : Except String (List String) :=
  match file with
  | none => .error "failed to read private key file"
  | some content => .ok (loadLines content)

/-- Model of `readProxies` of `multiWalletClaim.js`: a missing or unreadable proxy
file yields the empty list instead of an error. -/
def readProxies (file : Option String) : List String :=
  match file with
  | none => []
  | some content => loadLines content

/-- The spec's description of a loader's output: the ordered sequence of
the file's trimmed non-empty lines. -/
def trimmedNonEmptyLines (content : String) : List String :=
  ((content.splitOn "\n").map String.trim).filter (fun l => l ≠ "")

/-! ## Lemmas about the `formatEther` model -/

theorem digitChar_ne_dot {d : Nat} (h : d < 10) : digitChar d ≠ '.' := by
  interval_cases d <;> decide

theorem digitChar_eq_zero_iff {d : Nat} (h : d < 10) : digitChar d = '0' ↔ d = 0 := by
  interval_cases d <;> decide

theorem natToCharsAux_congr :
    ∀ (f₁ n : Nat), n < f₁ → ∀ f₂ : Nat, n < f₂ →
      natToCharsAux f₁ n = natToCharsAux f₂ n := by
  intro f₁
  induction f₁ with
  | zero => intro n h; omega
  | succ g ih =>
    intro n h₁ f₂ h₂
    cases f₂ with
    | zero => omega
    | succ k =>
      unfold natToCharsAux
      by_cases hn : n < 10
      · rw [if_pos hn, if_pos hn]
      · rw [if_neg hn, if_neg hn]
        congr 1
        have hd : n / 10 < n := Nat.div_lt_self (by omega) (by omega)
        exact ih (n / 10) (by omega) k (by omega)

theorem natToChars_unfold (n : Nat) :
    natToChars n =
      if n < 10 then [digitChar n]
      else natToChars (n / 10) ++ [digitChar (n % 10)] := by
  show natToCharsAux (n + 1) n = _
  unfold natToCharsAux
  by_cases hn : n < 10
  · rw [if_pos hn, if_pos hn]
  · rw [if_neg hn, if_neg hn]
    congr 1
    exact natToCharsAux_congr n (n / 10) (Nat.div_lt_self (by omega) (by omega))
      (n / 10 + 1) (by omega)

theorem natToChars_ne_nil (n : Nat) : natToChars n ≠ [] := by
  rw [natToChars_unfold]
  split
  · simp
  · simp

theorem not_dot_mem_natToChars : ∀ n : Nat, ∀ c ∈ natToChars n, c ≠ '.' := by
  intro n
  induction n using Nat.strong_induction_on with
  | _ n ih =>
    rw [natToChars_unfold]
    split
    · next h =>
      intro c hc
      simp only [List.mem_singleton] at hc
      exact hc ▸ digitChar_ne_dot h
    · next h =>
      intro c hc
      rcases List.mem_append.mp hc with hc | hc
      · exact ih (n / 10) (Nat.div_lt_self (by omega) (by omega)) c hc
      · simp only [List.mem_singleton] at hc
        exact hc ▸ digitChar_ne_dot (Nat.mod_lt _ (by omega))

theorem natToChars_eq_single_zero {n : Nat} (h : natToChars n = ['0']) : n = 0 := by
  rw [natToChars_unfold] at h
  split at h
  · next hlt =>
    simp only [List.cons.injEq, and_true] at h
    exact (digitChar_eq_zero_iff hlt).mp h
  · next hlt =>
    exfalso
    have hlen := congrArg List.length h
    simp only [List.length_append, List.length_singleton, List.length_cons,
      List.length_nil] at hlen
    exact natToChars_ne_nil (n / 10) (List.length_eq_zero.mp (by omega))

theorem natToChars_all_zero : ∀ n : Nat, (∀ c ∈ natToChars n, c = '0') → n = 0 := by
  intro n
  induction n using Nat.strong_induction_on with
  | _ n ih =>
    intro h
    rw [natToChars_unfold] at h
    split at h
    · next hlt => exact (digitChar_eq_zero_iff hlt).mp (h _ (by simp))
    · next hlt =>
      exfalso
      have hdiv : n / 10 = 0 :=
        ih (n / 10) (Nat.div_lt_self (by omega) (by omega))
          (fun c hc => h c (List.mem_append.mpr (Or.inl hc)))
      rw [Nat.div_eq_zero_iff (by omega)] at hdiv
      omega

theorem dropWhile_cons_false {α : Type} (p : α → Bool) :
    ∀ (l : List α) (a : α) (t : List α), l.dropWhile p = a :: t → p a = false := by
  intro l
  induction l with
  | nil => intro a t h; simp [List.dropWhile] at h
  | cons x xs ih =>
    intro a t h
    rw [List.dropWhile_cons] at h
    by_cases hp : p x
    · rw [if_pos hp] at h
      exact ih a t h
    · rw [if_neg hp] at h
      obtain ⟨rfl, -⟩ := List.cons.injEq .. ▸ h
      exact Bool.eq_false_iff.mpr hp

theorem fracPart_eq_single_zero {m : Nat} (h : fracPart m = ['0']) : m = 0 := by
  unfold fracPart at h
  by_cases he : (trimTrailingZeros (fracChars m)).isEmpty
  · have hnil : trimTrailingZeros (fracChars m) = [] := by
      simpa [List.isEmpty_iff] using he
    unfold trimTrailingZeros at hnil
    have hd : (fracChars m).reverse.dropWhile (fun c => c == '0') = [] := by
      have := congrArg List.reverse hnil
      simpa using this
    have hall := List.dropWhile_eq_nil_iff.mp hd
    refine natToChars_all_zero m (fun c hc => ?_)
    have : c ∈ (fracChars m).reverse :=
      List.mem_reverse.mpr (List.mem_append.mpr (Or.inr hc))
    simpa [beq_iff_eq] using hall c this
  · rw [if_neg he] at h
    exfalso
    unfold trimTrailingZeros at h
    have hrev : (fracChars m).reverse.dropWhile (fun c => c == '0') = ['0'] := by
      have := congrArg List.reverse h
      simpa using this
    have := dropWhile_cons_false (fun c => c == '0') _ _ _ hrev
    simp at this

theorem formatEther_zero : formatEther 0 = "0.0" := by decide

theorem formatEther_eq_iff (n : Nat) : formatEther n = "0.0" ↔ n = 0 := by
  constructor
  · intro h
    have h0 : ("0.0" : String) = String.mk ['0', '.', '0'] := by decide
    rw [h0] at h
    unfold formatEther at h
    have hdata : natToChars (n / WEI) ++ '.' :: fracPart (n % WEI) = ['0', '.', '0'] :=
      congrArg String.data h
    rcases hA : natToChars (n / WEI) with - | ⟨a, A⟩
    · exact absurd hA (natToChars_ne_nil _)
    · rw [hA] at hdata
      simp only [List.cons_append, List.cons.injEq] at hdata
      obtain ⟨rfl, hdata⟩ := hdata
      rcases A with - | ⟨c, A⟩
      · simp only [List.nil_append, List.cons.injEq, true_and] at hdata
        have h1 : n / WEI = 0 := natToChars_eq_single_zero hA
        have h2 : n % WEI = 0 := fracPart_eq_single_zero hdata
        have hnm := Nat.div_add_mod n WEI
        rw [h1, h2, Nat.mul_zero, Nat.add_zero] at hnm
        omega
      · exfalso
        simp only [List.cons_append, List.cons.injEq] at hdata
        exact not_dot_mem_natToChars (n / WEI) c (by rw [hA]; simp) hdata.1
  · rintro rfl
    exact formatEther_zero

theorem hasClaimedToday_ok_iff (n : Nat) : hasClaimedToday (.ok n) = true ↔ n = 0 := by
  simp [hasClaimedToday, formatEther_eq_iff]

theorem hasClaimedToday_ok_pos {n : Nat} (h : n ≠ 0) : hasClaimedToday (.ok n) = false := by
  rw [← Bool.not_eq_true, hasClaimedToday_ok_iff]
  exact h

theorem hasClaimedToday_error (e : String) : hasClaimedToday (.error e) = false := rfl

/-! ## Always-failing environments and the retry loops -/

/-- A chain behaviour whose submission (and confirmation) always raises
`msg`, while the availability query answers `avail` wei and `getFeeData`
succeeds. -/
def failEnv (avail : Nat) (msg : String) : AttemptEnv :=
  ⟨.ok avail, .ok ⟨0, 0⟩, .error msg, .error msg⟩

theorem attemptOnce_failEnv_mwc {avail : Nat} (h : avail ≠ 0) (msg : String) :
    MultiWalletClaim.attemptOnce (failEnv avail msg) = (.thrown msg, 1) := by
  unfold MultiWalletClaim.attemptOnce failEnv
  rw [hasClaimedToday_ok_pos h]
  rfl

theorem attemptOnce_failEnv_p002 {avail : Nat} (h : avail ≠ 0) (msg : String) :
    Part002.attemptOnce (failEnv avail msg) = (.thrown msg, 1) := by
  unfold Part002.attemptOnce failEnv
  have : (formatEther avail == "0.0") = false := by
    have := hasClaimedToday_ok_pos h
    simpa [hasClaimedToday] using this
  simp only [this]
  rfl

theorem mwc_claimLoop_allFail (cfg : MultiWalletClaim.Config) (ts : String)
    (idx total : Nat) (pk : String) (env : Nat → AttemptEnv) (msg : String) (s : Nat)
    (hfail : ∀ k, MultiWalletClaim.attemptOnce (env k) = (.thrown msg, s)) :
    ∀ (fuel r : Nat), r + fuel = cfg.maxRetries + 1 → 0 < fuel →
      MultiWalletClaim.claimLoop cfg ts idx total pk env r fuel =
        ⟨false, fuel, fuel * s, [], [⟨ts, idx, total, msg, cfg.maxRetries⟩],
          if 0 < cfg.retryDelay then List.replicate (fuel - 1) cfg.retryDelay
          else []⟩ := by
  intro fuel
  induction fuel with
  | zero => intro r h h0; omega
  | succ f ih =>
    intro r h h0
    simp only [MultiWalletClaim.claimLoop, hfail r]
    by_cases hr : r ≥ cfg.maxRetries
    · have hf : f = 0 := by omega
      have hrm : r = cfg.maxRetries := by omega
      subst hf hrm
      rw [if_pos hr]
      simp [ite_self]
    · obtain ⟨g, rfl⟩ : ∃ g, f = g + 1 := ⟨f - 1, by omega⟩
      rw [if_neg hr]
      simp only [ih (r + 1) (by omega) (by omega)]
      congr 1
      · ring
      · by_cases hd : 0 < cfg.retryDelay
        · simp [hd, List.replicate_succ]
        · simp [hd]

theorem backoffIter_succ_front (d : Nat) (f : ℚ) (i : Nat) :
    backoffIter d f (i + 1) = backoffIter (Part002.nextDelay d f) f i := by
  induction i with
  | zero => rfl
  | succ i ih =>
    show Part002.nextDelay (backoffIter d f (i + 1)) f = _
    rw [ih]
    rfl

theorem p002_claimLoop_allFail (cfg : Part002.Config) (ts : String)
    (idx total : Nat) (pk : String) (env : Nat → AttemptEnv) (msg : String) (s : Nat)
    (hfail : ∀ k, Part002.attemptOnce (env k) = (.thrown msg, s)) :
    ∀ (fuel r cd : Nat), r + fuel = cfg.maxRetries + 1 → 0 < fuel →
      Part002.claimLoop cfg ts idx total pk env r cd fuel =
        ⟨false, fuel, fuel * s, [], [⟨ts, idx, total, msg, cfg.maxRetries⟩],
          (List.range (fuel - 1)).map (backoffIter cd cfg.escalationFactor)⟩ := by
  intro fuel
  induction fuel with
  | zero => intro r cd h h0; omega
  | succ f ih =>
    intro r cd h h0
    simp only [Part002.claimLoop, hfail r]
    by_cases hr : r ≥ cfg.maxRetries
    · have hf : f = 0 := by omega
      have hrm : r = cfg.maxRetries := by omega
      subst hf hrm
      rw [if_pos hr]
      simp
    · obtain ⟨g, rfl⟩ : ∃ g, f = g + 1 := ⟨f - 1, by omega⟩
      rw [if_neg hr]
      simp only [ih (r + 1) (Part002.nextDelay cd cfg.escalationFactor) (by omega) (by omega)]
      congr 1
      · ring
      · show cd :: (List.range (g + 1 - 1)).map
            (backoffIter (Part002.nextDelay cd cfg.escalationFactor) cfg.escalationFactor) =
          (List.range (g + 1 + 1 - 1)).map (backoffIter cd cfg.escalationFactor)
        simp only [Nat.add_sub_cancel]
        rw [List.range_succ_eq_map]
        simp only [List.map_cons, List.map_map]
        refine congrArg₂ List.cons rfl ?_
        refine List.map_congr_left (fun i _ => ?_)
        exact (backoffIter_succ_front cd cfg.escalationFactor i).symm

/-- Evaluating `nextDelay` on a ratio of naturals is floored natural division:
`⌊cd · (p / q)⌋ = (cd · p) / q`. -/
theorem nextDelay_div (cd p q : Nat) :
    Part002.nextDelay cd ((p : ℚ) / (q : ℚ)) = cd * p / q := by
  unfold Part002.nextDelay
  rw [show (cd : ℚ) * ((p : ℚ) / (q : ℚ)) = (((cd * p : ℕ) : ℤ) : ℚ) / ((q : ℕ) : ℚ) by
    push_cast; ring]
  rw [Rat.floor_intCast_div_natCast]
  rw [show ((cd * p : ℕ) : ℤ) / ((q : ℕ) : ℤ) = ((cd * p / q : ℕ) : ℤ) from
    (Int.ofNat_div (cd * p) q).symm]
  exact Int.toNat_natCast _

/-- With a natural escalation factor the floor is exact. -/
theorem nextDelay_natCast (cd m : Nat) : Part002.nextDelay cd (m : ℚ) = cd * m := by
  unfold Part002.nextDelay
  rw [← Nat.cast_mul, Int.floor_natCast]
  exact Int.toNat_natCast _

/-- With a natural escalation factor the backoff is exactly geometric. -/
theorem backoffIter_natCast (d m : Nat) : ∀ k, backoffIter d (m : ℚ) k = d * m ^ k := by
  intro k
  induction k with
  | zero => simp [backoffIter]
  | succ k ih =>
    show Part002.nextDelay (backoffIter d (m : ℚ) k) (m : ℚ) = _
    rw [ih, nextDelay_natCast, pow_succ, Nat.mul_assoc]

/-- Evaluating `backoffIter` at factor `3/2` is floored multiplication by `3/2`. -/
theorem backoffIter_three_halves (d k : Nat) :
    backoffIter d ((3 : ℚ) / 2) (k + 1) = backoffIter d ((3 : ℚ) / 2) k * 3 / 2 := by
  show Part002.nextDelay (backoffIter d ((3 : ℚ) / 2) k) ((3 : ℚ) / 2) = _
  rw [show ((3 : ℚ) / 2) = ((3 : ℕ) : ℚ) / ((2 : ℕ) : ℚ) by norm_num]
  exact nextDelay_div _ 3 2

/-! ## Claim theorems -/

/-- Claim C10: the already-claimed decision is exactly the zero test — the
check compares the decimal-formatted amount to the string `"0.0"`, which
holds iff the amount is exactly `0` wei, and every strictly positive amount
proceeds to the submission call. -/
theorem claim10_zero_test (n : Nat) (fd : FeeData) (sub : Except String String)
    (conf : Except String Receipt) :
    (hasClaimedToday (.ok n) = true ↔ n = 0) ∧
    (formatEther n = "0.0" ↔ n = 0) ∧
    (n ≠ 0 → (MultiWalletClaim.attemptOnce ⟨.ok n, .ok fd, sub, conf⟩).2 = 1) := by
  refine ⟨hasClaimedToday_ok_iff n, formatEther_eq_iff n, fun h => ?_⟩
  cases sub <;> cases conf <;>
    simp [MultiWalletClaim.attemptOnce, submitPhase, hasClaimedToday_ok_pos h]

theorem claim10_zero_test_witness :
    (1 : Nat) ≠ 0 ∧
    (MultiWalletClaim.attemptOnce ⟨.ok 1, .ok ⟨0, 0⟩, .ok "tx", .ok ⟨0, "tx"⟩⟩).2 = 1 :=
  ⟨by decide, (claim10_zero_test 1 ⟨0, 0⟩ (.ok "tx") (.ok ⟨0, "tx"⟩)).2.2 (by decide)⟩

/-- Claim C4: when the reward-availability query returns exactly zero, the
attempt makes no submission call, `claimReward` returns after one loop
iteration, and the cycle classifies the outcome as `SkippedAlreadyClaimed`
(in `part_002`, likewise no submission call occurs). -/
theorem claim4_zero_skip (cfgM : MultiWalletClaim.Config) (cfgP : Part002.Config)
    (ts : String) (idx total : Nat) (pk : String) (env : Nat → AttemptEnv)
    (hq : ∀ k, (env k).query = .ok 0) :
    (MultiWalletClaim.claimReward cfgM ts idx total pk env).submitCalls = 0 ∧
    (MultiWalletClaim.claimReward cfgM ts idx total pk env).result = true ∧
    (MultiWalletClaim.claimReward cfgM ts idx total pk env).attempts = 1 ∧
    MultiWalletClaim.classify
      (MultiWalletClaim.claimReward cfgM ts idx total pk env).result (.ok 0)
        = .SkippedAlreadyClaimed ∧
    (Part002.claimReward cfgP ts idx total pk env).submitCalls = 0 ∧
    (Part002.claimReward cfgP ts idx total pk env).result = true := by
  have hA : MultiWalletClaim.attemptOnce (env 0) = (.skipped, 0) := by
    unfold MultiWalletClaim.attemptOnce
    rw [hq 0]
    simp [hasClaimedToday, formatEther_zero]
  have hP : Part002.attemptOnce (env 0) = (.skipped, 0) := by
    unfold Part002.attemptOnce
    rw [hq 0]
    simp [formatEther_zero]
  have hM : MultiWalletClaim.claimReward cfgM ts idx total pk env = ⟨true, 1, 0, [], [], []⟩ := by
    unfold MultiWalletClaim.claimReward
    simp only [MultiWalletClaim.claimLoop, hA]
  have hPc : Part002.claimReward cfgP ts idx total pk env = ⟨true, 1, 0, [], [], []⟩ := by
    unfold Part002.claimReward
    simp only [Part002.claimLoop, hP]
  rw [hM, hPc]
  refine ⟨rfl, rfl, rfl, ?_, rfl, rfl⟩
  simp [MultiWalletClaim.classify, hasClaimedToday, formatEther_zero]

theorem claim4_zero_skip_witness :
    (MultiWalletClaim.claimReward MultiWalletClaim.config "t" 0 2 "A"
      (fun _ => ⟨.ok 0, .ok ⟨0, 0⟩, .ok "tx", .ok ⟨0, "tx"⟩⟩)).submitCalls = 0 ∧
    (MultiWalletClaim.claimReward MultiWalletClaim.config "t" 0 2 "A"
      (fun _ => ⟨.ok 0, .ok ⟨0, 0⟩, .ok "tx", .ok ⟨0, "tx"⟩⟩)).result = true ∧
    (MultiWalletClaim.claimReward MultiWalletClaim.config "t" 0 2 "A"
      (fun _ => ⟨.ok 0, .ok ⟨0, 0⟩, .ok "tx", .ok ⟨0, "tx"⟩⟩)).attempts = 1 ∧
    MultiWalletClaim.classify
      (MultiWalletClaim.claimReward MultiWalletClaim.config "t" 0 2 "A"
        (fun _ => ⟨.ok 0, .ok ⟨0, 0⟩, .ok "tx", .ok ⟨0, "tx"⟩⟩)).result (.ok 0)
          = .SkippedAlreadyClaimed ∧
    (Part002.claimReward Part002.config "t" 0 2 "A"
      (fun _ => ⟨.ok 0, .ok ⟨0, 0⟩, .ok "tx", .ok ⟨0, "tx"⟩⟩)).submitCalls = 0 ∧
    (Part002.claimReward Part002.config "t" 0 2 "A"
      (fun _ => ⟨.ok 0, .ok ⟨0, 0⟩, .ok "tx", .ok ⟨0, "tx"⟩⟩)).result = true :=
  claim4_zero_skip MultiWalletClaim.config Part002.config "t" 0 2 "A"
    (fun _ => ⟨.ok 0, .ok ⟨0, 0⟩, .ok "tx", .ok ⟨0, "tx"⟩⟩) (fun _ => rfl)

/-- A chain behaviour whose availability query always raises while every
other call would succeed. -/
def queryFailChain : AttemptEnv :=
  ⟨.error "query failed", .ok ⟨1, 1⟩, .ok "0xabc", .ok ⟨7, "0xabc"⟩⟩

/-- Claim C1 (evaluated at the failing input): when the
reward-availability query raises on every call, `multiWalletClaim.js`'s
`claimReward` never reaches the submission call — `hasClaimedToday`
swallows the error but the second, unguarded `dailyRewardsAvailable` call
rethrows, so every attempt fails and the credential ends in failure after
all retries — whereas `part_002`'s `claimReward` (whose single query is
guarded) submits in that same first attempt and succeeds. -/
theorem claim1_query_failure_blocks_submission :
    (MultiWalletClaim.claimReward MultiWalletClaim.config "t" 0 1 "pk"
      (fun _ => queryFailChain)).submitCalls = 0 ∧
    (MultiWalletClaim.claimReward MultiWalletClaim.config "t" 0 1 "pk"
      (fun _ => queryFailChain)).result = false ∧
    (MultiWalletClaim.claimReward MultiWalletClaim.config "t" 0 1 "pk"
      (fun _ => queryFailChain)).attempts = MultiWalletClaim.MAX_RETRIES + 1 ∧
    (Part002.claimReward Part002.config "t" 0 1 "pk"
      (fun _ => queryFailChain)).submitCalls = 1 ∧
    (Part002.claimReward Part002.config "t" 0 1 "pk"
      (fun _ => queryFailChain)).result = true := by
  refine ⟨by decide, by decide, by decide, by decide, by decide⟩

/-- Claim C3: for a credential whose submission fails on every attempt,
`claimReward` performs exactly `maxRetries + 1` attempts, appends exactly
one error-log line carrying the timestamp, credential index, error message
and retry count, appends nothing to the success log, and returns failure. -/
theorem claim3_retry_bound (cfg : MultiWalletClaim.Config) (ts pk msg : String)
    (idx total avail : Nat) (h : avail ≠ 0) :
    (MultiWalletClaim.claimReward cfg ts idx total pk
      (fun _ => failEnv avail msg)).attempts = cfg.maxRetries + 1 ∧
    (MultiWalletClaim.claimReward cfg ts idx total pk
      (fun _ => failEnv avail msg)).errorLog = [⟨ts, idx, total, msg, cfg.maxRetries⟩] ∧
    (MultiWalletClaim.claimReward cfg ts idx total pk
      (fun _ => failEnv avail msg)).successLog = [] ∧
    (MultiWalletClaim.claimReward cfg ts idx total pk
      (fun _ => failEnv avail msg)).result = false := by
  have hall := mwc_claimLoop_allFail cfg ts idx total pk (fun _ => failEnv avail msg) msg 1
    (fun _ => attemptOnce_failEnv_mwc h msg) (cfg.maxRetries + 1) 0 (by omega) (by omega)
  unfold MultiWalletClaim.claimReward
  rw [hall]
  exact ⟨rfl, rfl, rfl, rfl⟩

theorem claim3_retry_bound_witness :
    (MultiWalletClaim.claimReward MultiWalletClaim.config "t" 0 1 "boom"
      (fun _ => failEnv 1 "boom")).attempts = MultiWalletClaim.config.maxRetries + 1 ∧
    (MultiWalletClaim.claimReward MultiWalletClaim.config "t" 0 1 "boom"
      (fun _ => failEnv 1 "boom")).errorLog
        = [⟨"t", 0, 1, "boom", MultiWalletClaim.config.maxRetries⟩] ∧
    (MultiWalletClaim.claimReward MultiWalletClaim.config "t" 0 1 "boom"
      (fun _ => failEnv 1 "boom")).successLog = [] ∧
    (MultiWalletClaim.claimReward MultiWalletClaim.config "t" 0 1 "boom"
      (fun _ => failEnv 1 "boom")).result = false :=
  claim3_retry_bound MultiWalletClaim.config "t" "boom" "boom" 0 1 1 (by decide)

/-- Claim C5 (amended): under always-failing submissions, `part_002`'s wait
before retry `k + 1` is `backoffIter d f k` — `d`, then repeated
floor-multiplication by the factor; when the factor is a natural number
this is exactly the geometric `d · f^k`; and in `multiWalletClaim.js` the
escalation factor is never applied, every wait being the constant base
delay. -/
theorem claim5_backoff_floor (cfgP : Part002.Config) (cfgM : MultiWalletClaim.Config)
    (ts pk msg : String) (idx total avail : Nat) (h : avail ≠ 0) :
    (Part002.claimReward cfgP ts idx total pk (fun _ => failEnv avail msg)).waits
        = (List.range cfgP.maxRetries).map
            (backoffIter cfgP.retryDelay cfgP.escalationFactor) ∧
    (∀ d m k : Nat, backoffIter d (m : ℚ) k = d * m ^ k) ∧
    (0 < cfgM.retryDelay →
      (MultiWalletClaim.claimReward cfgM ts idx total pk
        (fun _ => failEnv avail msg)).waits
          = List.replicate cfgM.maxRetries cfgM.retryDelay) := by
  refine ⟨?_, fun d m k => backoffIter_natCast d m k, fun hd => ?_⟩
  · have hall := p002_claimLoop_allFail cfgP ts idx total pk (fun _ => failEnv avail msg)
      msg 1 (fun _ => attemptOnce_failEnv_p002 h msg)
      (cfgP.maxRetries + 1) 0 cfgP.retryDelay (by omega) (by omega)
    unfold Part002.claimReward
    rw [hall]
    rfl
  · have hall := mwc_claimLoop_allFail cfgM ts idx total pk (fun _ => failEnv avail msg)
      msg 1 (fun _ => attemptOnce_failEnv_mwc h msg)
      (cfgM.maxRetries + 1) 0 (by omega) (by omega)
    unfold MultiWalletClaim.claimReward
    rw [hall]
    simp [hd]

theorem claim5_backoff_floor_witness :
    (1 : Nat) ≠ 0 ∧
    (Part002.claimReward Part002.config "t" 0 1 "pk" (fun _ => failEnv 1 "boom")).waits
        = (List.range Part002.config.maxRetries).map
            (backoffIter Part002.config.retryDelay Part002.config.escalationFactor) ∧
    (MultiWalletClaim.claimReward ⟨2, 100⟩ "t" 0 1 "pk"
      (fun _ => failEnv 1 "boom")).waits = List.replicate 2 100 :=
  ⟨by decide,
    (claim5_backoff_floor Part002.config ⟨2, 100⟩ "t" "pk" "boom" 0 1 1 (by decide)).1,
    (claim5_backoff_floor Part002.config ⟨2, 100⟩ "t" "pk" "boom" 0 1 1 (by decide)).2.2
      (by decide)⟩

/-- Claim C5's original statement is false on `part_002`'s shipped
constants (`RETRY_DELAY = 5000`, `ESCALATION_FACTOR = 1.5`,
`MAX_RETRIES = 5`): with an always-failing submission the five requested
waits are `5000, 7500, 11250, 16875, 25312`, and the fifth wait `25312`
differs from `d · f^(5-1) = 25312.5` because `Math.floor` is applied after
each multiplication. -/
theorem claim5_exact_power_counterexample :
    (Part002.claimReward Part002.config "t" 0 1 "pk" (fun _ => failEnv 1 "boom")).waits
        = [5000, 7500, 11250, 16875, 25312] ∧
    ¬ ((25312 : ℚ) = (Part002.RETRY_DELAY : ℚ) * Part002.ESCALATION_FACTOR ^ (5 - 1)) := by
  constructor
  · have hall := p002_claimLoop_allFail Part002.config "t" 0 1 "pk"
      (fun _ => failEnv 1 "boom") "boom" 1
      (fun _ => attemptOnce_failEnv_p002 (by decide) "boom")
      (Part002.config.maxRetries + 1) 0 Part002.config.retryDelay (by omega) (by omega)
    unfold Part002.claimReward
    rw [hall]
    have hb0 : backoffIter 5000 ((3 : ℚ) / 2) 0 = 5000 := rfl
    have hb1 : backoffIter 5000 ((3 : ℚ) / 2) 1 = 7500 := by
      rw [backoffIter_three_halves, hb0]
    have hb2 : backoffIter 5000 ((3 : ℚ) / 2) 2 = 11250 := by
      rw [backoffIter_three_halves, hb1]
    have hb3 : backoffIter 5000 ((3 : ℚ) / 2) 3 = 16875 := by
      rw [backoffIter_three_halves, hb2]
    have hb4 : backoffIter 5000 ((3 : ℚ) / 2) 4 = 25312 := by
      rw [backoffIter_three_halves, hb3]
    show (List.range 5).map (backoffIter 5000 ((3 : ℚ) / 2)) = _
    rw [show List.range 5 = [0, 1, 2, 3, 4] from rfl]
    simp only [List.map_cons, List.map_nil]
    rw [hb0, hb1, hb2, hb3, hb4]
  · intro hcontra
    rw [show Part002.ESCALATION_FACTOR = (3 : ℚ) / 2 from rfl,
      show Part002.RETRY_DELAY = 5000 from rfl] at hcontra
    norm_num at hcontra

/-- Claim C6: the inter-cycle delay is the post-claim interval (23 h)
after a cycle with at least one success and the check interval (1 h)
otherwise. -/
theorem claim6_scheduling (s : MultiWalletClaim.CycleResult) (now : Nat) :
    (0 < s.successCount →
      MultiWalletClaim.calculateNextRunTime s now - now
        = MultiWalletClaim.HOURS_TO_WAIT_AFTER_CLAIM * MultiWalletClaim.msPerHour) ∧
    (s.successCount = 0 →
      MultiWalletClaim.calculateNextRunTime s now - now
        = MultiWalletClaim.DAILY_CHECK_INTERVAL * MultiWalletClaim.msPerHour) := by
  unfold MultiWalletClaim.calculateNextRunTime
  constructor
  · intro h
    rw [if_pos h]
    omega
  · intro h
    rw [if_neg (by omega)]
    omega

theorem claim6_scheduling_witness :
    MultiWalletClaim.calculateNextRunTime ⟨1, 0, 0, 1, [], [], []⟩ 1000 - 1000
        = MultiWalletClaim.HOURS_TO_WAIT_AFTER_CLAIM * MultiWalletClaim.msPerHour ∧
    MultiWalletClaim.calculateNextRunTime ⟨0, 1, 0, 1, [], [], []⟩ 1000 - 1000
        = MultiWalletClaim.DAILY_CHECK_INTERVAL * MultiWalletClaim.msPerHour :=
  ⟨(claim6_scheduling ⟨1, 0, 0, 1, [], [], []⟩ 1000).1 (by decide),
    (claim6_scheduling ⟨0, 1, 0, 1, [], [], []⟩ 1000).2 (by decide)⟩

theorem decide_length_pos_eq_decide_ne_empty (l : String) :
    (decide (0 < l.length)) = (decide (l ≠ "")) := by
  cases l with
  | mk data =>
    cases data with
    | nil => rfl
    | cons c cs =>
      have h1 : 0 < (String.mk (c :: cs)).length := by
        show 0 < (c :: cs).length
        simp
      have h2 : String.mk (c :: cs) ≠ "" := by
        intro he
        have := congrArg String.data he
        simp at this
      rw [decide_eq_true h1, decide_eq_true h2]

theorem loadLines_eq_trimmedNonEmptyLines (text : String) :
    loadLines text = trimmedNonEmptyLines text := by
  unfold loadLines trimmedNonEmptyLines
  exact List.filter_congr (fun l _ => decide_length_pos_eq_decide_ne_empty l)

/-- Claim C9: the loaders produce the ordered sequence of the file's
trimmed non-empty lines; a missing credential file is a configuration
error, while a missing proxy file yields the empty sequence. -/
theorem claim9_loaders :
    (∀ text, readPrivateKeys (some text) = .ok (trimmedNonEmptyLines text)) ∧
    (∃ msg, readPrivateKeys none = .error msg) ∧
    readProxies none = [] ∧
    (∀ text, readProxies (some text) = trimmedNonEmptyLines text) := by
  refine ⟨fun text => ?_, ⟨"failed to read private key file", rfl⟩, rfl, fun text => ?_⟩
  · show Except.ok (loadLines text) = _
    rw [loadLines_eq_trimmedNonEmptyLines]
  · show loadLines text = _
    rw [loadLines_eq_trimmedNonEmptyLines]

/-! ## Permutation property of the shuffle -/

theorem get?_set_self {α : Type} (l : List α) (i : Nat) (b : α) (h : i < l.length) :
    (l.set i b).get? i = some b := by
  simp [List.get?_eq_getElem?, List.getElem?_set_self, h]

theorem get?_set_other {α : Type} (l : List α) (i j : Nat) (b : α) (h : i ≠ j) :
    (l.set i b).get? j = l.get? j := by
  simp [List.get?_eq_getElem?, List.getElem?_set_ne h]

theorem set_append_perm {α : Type} :
    ∀ (l : List α) (i : Nat) (a b : α), l.get? i = some a →
      List.Perm (l.set i b ++ [a]) (b :: l) := by
  intro l
  induction l with
  | nil => intro i a b h; simp at h
  | cons x t ih =>
    intro i a b h
    cases i with
    | zero =>
      have hx : some x = some a := h
      injection hx with hx
      subst hx
      exact List.Perm.cons b (List.perm_append_singleton x t)
    | succ k =>
      have ht : t.get? k = some a := h
      exact List.Perm.trans (List.Perm.cons x (ih k a b ht)) (List.Perm.swap b x t)

theorem listSwap_perm {α : Type} (l : List α) (i j : Nat) :
    List.Perm (listSwap l i j) l := by
  unfold listSwap
  rcases hi : l.get? i with _ | a <;> rcases hj : l.get? j with _ | b
  · exact List.Perm.refl l
  · exact List.Perm.refl l
  · exact List.Perm.refl l
  · have hiL : i < l.length := (List.get?_eq_some.mp hi).1
    have hjb : (l.set i b).get? j = some b := by
      by_cases hij : i = j
      · subst hij
        rw [hi] at hj
        injection hj with hab
        rw [← hab]
        exact get?_set_self l i a hiL
      · rw [get?_set_other l i j b hij]
        exact hj
    have P1 := set_append_perm l i a b hi
    have P2 := set_append_perm (l.set i b) j b a hjb
    have key : List.Perm ((l.set i b).set j a ++ [b, a]) (l ++ [b, a]) := by
      have s1 : List.Perm ((l.set i b).set j a ++ [b] ++ [a]) (a :: (l.set i b ++ [a])) :=
        List.Perm.append_right [a] P2
      have s2 : List.Perm (a :: (l.set i b ++ [a])) (a :: b :: l) := List.Perm.cons a P1
      have s3 : List.Perm (a :: b :: l) (b :: a :: l) := List.Perm.swap b a l
      have s4 : List.Perm (b :: a :: l) (l ++ [b, a]) :=
        List.Perm.symm List.perm_append_comm
      have s5 := ((s1.trans s2).trans s3).trans s4
      simpa [List.append_assoc] using s5
    exact (List.perm_append_right_iff [b, a]).mp key

theorem fyAux_perm {α : Type} (js : Nat → Nat) :
    ∀ (n : Nat) (l : List α), List.Perm (fyAux js n l) l := by
  intro n
  induction n with
  | zero => intro l; exact List.Perm.refl l
  | succ i ih =>
    intro l
    exact List.Perm.trans (ih _) (listSwap_perm l (i + 1) (js (i + 1) % (i + 2)))

theorem shuffleArray_perm {α : Type} (l : List α) (js : Nat → Nat) :
    List.Perm (shuffleArray l js) l :=
  fyAux_perm js (l.length - 1) l

/-! ## Trace lemmas for the cycle loop -/

theorem cycleGo_keys (cfg : MultiWalletClaim.Config) (ts : String) (total : Nat)
    (proxies : List String) (env : String → Nat → AttemptEnv)
    (recheck : String → Except String Nat) :
    ∀ (keys : List String) (i : Nat),
      (MultiWalletClaim.cycleGo cfg ts total proxies env recheck keys i).attempts.map
        (fun a => a.key) = keys := by
  intro keys
  induction keys with
  | nil => intro i; rfl
  | cons pk rest ih =>
    intro i
    simp only [MultiWalletClaim.cycleGo, List.map_cons, ih (i + 1)]

theorem cycleGo_attempt_proxy (cfg : MultiWalletClaim.Config) (ts : String) (total : Nat)
    (proxies : List String) (env : String → Nat → AttemptEnv)
    (recheck : String → Except String Nat) :
    ∀ (keys : List String) (i k : Nat) (a : MultiWalletClaim.CycleAttempt),
      (MultiWalletClaim.cycleGo cfg ts total proxies env recheck keys i).attempts.get? k
          = some a →
        a.proxy = MultiWalletClaim.selectProxy proxies (i + k) := by
  intro keys
  induction keys with
  | nil =>
    intro i k a h
    simp [MultiWalletClaim.cycleGo] at h
  | cons pk rest ih =>
    intro i k a h
    cases k with
    | zero =>
      simp only [MultiWalletClaim.cycleGo, List.get?] at h
      injection h with h
      rw [← h]
      rfl
    | succ m =>
      have hrest :
          (MultiWalletClaim.cycleGo cfg ts total proxies env recheck rest (i + 1)).attempts.get? m
            = some a := h
      have := ih (i + 1) m a hrest
      rw [this]
      congr 1
      omega

/-- Claim C7: the proxy paired with the `i`-th attempt of a cycle (in
shuffled order) is `pool[i mod |pool|]` when the pool is non-empty and
none when it is empty. -/
theorem claim7_proxy_assignment (cfg : MultiWalletClaim.Config) (ts : String)
    (privateKeys proxies : List String) (env : String → Nat → AttemptEnv)
    (recheck : String → Except String Nat) (js : Nat → Nat) (i : Nat)
    (a : MultiWalletClaim.CycleAttempt)
    (h : (MultiWalletClaim.runClaimCycle cfg ts privateKeys proxies env recheck js).attempts.get? i
      = some a) :
    a.proxy = (if hp : 0 < proxies.length then
        some (proxies.get ⟨i % proxies.length, Nat.mod_lt i hp⟩)
      else none) := by
  have hmain := cycleGo_attempt_proxy cfg ts (shuffleArray privateKeys js).length proxies
    env recheck (shuffleArray privateKeys js) 0 i a h
  rw [Nat.zero_add] at hmain
  rw [hmain]
  unfold MultiWalletClaim.selectProxy
  by_cases hp : 0 < proxies.length
  · rw [if_pos hp, dif_pos hp]
    exact List.get?_eq_get (Nat.mod_lt i hp)
  · rw [if_neg hp, dif_neg hp]

/-- Claim C8: a cycle performs exactly one attempt per credential, and the
attempted credentials are a permutation of the input credential list. -/
theorem claim8_permutation (cfg : MultiWalletClaim.Config) (ts : String)
    (privateKeys proxies : List String) (env : String → Nat → AttemptEnv)
    (recheck : String → Except String Nat) (js : Nat → Nat)
    (_hne : privateKeys ≠ []) :
    (MultiWalletClaim.runClaimCycle cfg ts privateKeys proxies env recheck js).attempts.length
        = privateKeys.length ∧
    List.Perm
      ((MultiWalletClaim.runClaimCycle cfg ts privateKeys proxies env recheck js).attempts.map
        (fun a => a.key))
      privateKeys := by
  have hmap := cycleGo_keys cfg ts (shuffleArray privateKeys js).length proxies env recheck
    (shuffleArray privateKeys js) 0
  have hperm : List.Perm (shuffleArray privateKeys js) privateKeys :=
    shuffleArray_perm privateKeys js
  constructor
  · have hlen := congrArg List.length hmap
    rw [List.length_map] at hlen
    rw [show (MultiWalletClaim.runClaimCycle cfg ts privateKeys proxies env recheck js).attempts
        = (MultiWalletClaim.cycleGo cfg ts (shuffleArray privateKeys js).length proxies env
            recheck (shuffleArray privateKeys js) 0).attempts from rfl]
    rw [hlen]
    exact hperm.length_eq
  · rw [show (MultiWalletClaim.runClaimCycle cfg ts privateKeys proxies env recheck js).attempts
        = (MultiWalletClaim.cycleGo cfg ts (shuffleArray privateKeys js).length proxies env
            recheck (shuffleArray privateKeys js) 0).attempts from rfl]
    rw [hmap]
    exact hperm

theorem claim8_permutation_witness :
    (MultiWalletClaim.runClaimCycle MultiWalletClaim.config "t" ["A", "B"] []
      (fun _ _ => ⟨.ok 0, .ok ⟨0, 0⟩, .ok "tx", .ok ⟨0, "tx"⟩⟩)
      (fun _ => .ok 0) (fun _ => 0)).attempts.length = (["A", "B"] : List String).length ∧
    List.Perm
      ((MultiWalletClaim.runClaimCycle MultiWalletClaim.config "t" ["A", "B"] []
        (fun _ _ => ⟨.ok 0, .ok ⟨0, 0⟩, .ok "tx", .ok ⟨0, "tx"⟩⟩)
        (fun _ => .ok 0) (fun _ => 0)).attempts.map (fun a => a.key))
      ["A", "B"] :=
  claim8_permutation MultiWalletClaim.config "t" ["A", "B"] []
    (fun _ _ => ⟨.ok 0, .ok ⟨0, 0⟩, .ok "tx", .ok ⟨0, "tx"⟩⟩)
    (fun _ => .ok 0) (fun _ => 0) (by decide)

theorem claim7_proxy_assignment_witness :
    (MultiWalletClaim.runClaimCycle MultiWalletClaim.config "t" ["A", "B"] ["p1"]
        (fun _ _ => ⟨.ok 0, .ok ⟨0, 0⟩, .ok "tx", .ok ⟨0, "tx"⟩⟩)
        (fun _ => .ok 0) (fun _ => 0)).attempts.get? 1
      = some ⟨"A", some "p1", .SkippedAlreadyClaimed⟩ ∧
    (some "p1" : Option String) = (if hp : 0 < (["p1"] : List String).length then
        some ((["p1"] : List String).get ⟨1 % (["p1"] : List String).length, Nat.mod_lt 1 hp⟩)
      else none) :=
  ⟨by decide,
    claim7_proxy_assignment MultiWalletClaim.config "t" ["A", "B"] ["p1"]
      (fun _ _ => ⟨.ok 0, .ok ⟨0, 0⟩, .ok "tx", .ok ⟨0, "tx"⟩⟩)
      (fun _ => .ok 0) (fun _ => 0) 1 ⟨"A", some "p1", .SkippedAlreadyClaimed⟩ (by decide)⟩

/-! ## The end-to-end two-credential scenario -/

/-- The C2 scenario chain: every call succeeds, credential `"A"` has zero
available reward and credential `"B"` a full ether, and the chain state is
static over the cycle. -/
def envAB : String → Nat → AttemptEnv := fun pk _ =>
  ⟨.ok (if pk = "B" then WEI else 0), .ok ⟨1, 1⟩, .ok "0xtx", .ok ⟨7, "0xtx"⟩⟩

/-- The post-claim re-query in the C2 scenario (static chain state). -/
def recheckAB : String → Except String Nat := fun pk =>
  .ok (if pk = "B" then WEI else 0)

theorem claimReward_envAB_A (cfg : MultiWalletClaim.Config) (ts : String)
    (idx total : Nat) :
    MultiWalletClaim.claimReward cfg ts idx total "A" (envAB "A")
      = ⟨true, 1, 0, [], [], []⟩ := by
  unfold MultiWalletClaim.claimReward
  simp only [MultiWalletClaim.claimLoop,
    show MultiWalletClaim.attemptOnce (envAB "A" 0) = (.skipped, 0) from by decide]

theorem claimReward_envAB_B (cfg : MultiWalletClaim.Config) (ts : String)
    (idx total : Nat) :
    MultiWalletClaim.claimReward cfg ts idx total "B" (envAB "B")
      = ⟨true, 1, 1, [⟨ts, idx, total, "B", "0xtx"⟩], [], []⟩ := by
  unfold MultiWalletClaim.claimReward
  simp only [MultiWalletClaim.claimLoop,
    show MultiWalletClaim.attemptOnce (envAB "B" 0) = (.success "0xtx" 7, 1) from by decide]
  rfl

theorem cycle_envAB_shuffled (ts : String) (js : Nat → Nat) :
    MultiWalletClaim.runClaimCycle MultiWalletClaim.config ts ["A", "B"] [] envAB recheckAB js
        = ⟨1, 1, 0, 2, [⟨"B", none, .Success⟩, ⟨"A", none, .SkippedAlreadyClaimed⟩],
            [⟨ts, 0, 2, "B", "0xtx"⟩], []⟩ ∨
    MultiWalletClaim.runClaimCycle MultiWalletClaim.config ts ["A", "B"] [] envAB recheckAB js
        = ⟨1, 1, 0, 2, [⟨"A", none, .SkippedAlreadyClaimed⟩, ⟨"B", none, .Success⟩],
            [⟨ts, 1, 2, "B", "0xtx"⟩], []⟩ := by
  have hsh : shuffleArray ["A", "B"] js = listSwap ["A", "B"] 1 (js 1 % 2) := rfl
  have hcB : MultiWalletClaim.classify true (recheckAB "B")
      = .Success := by decide
  have hcA : MultiWalletClaim.classify true (recheckAB "A")
      = .SkippedAlreadyClaimed := by decide
  rcases Nat.mod_two_eq_zero_or_one (js 1) with h | h
  · left
    unfold MultiWalletClaim.runClaimCycle
    rw [hsh, h, show listSwap ["A", "B"] 1 0 = ["B", "A"] from rfl]
    simp only [MultiWalletClaim.cycleGo, claimReward_envAB_A, claimReward_envAB_B,
      hcA, hcB, MultiWalletClaim.selectProxy]
    rfl
  · right
    unfold MultiWalletClaim.runClaimCycle
    rw [hsh, h, show listSwap ["A", "B"] 1 1 = ["A", "B"] from rfl]
    simp only [MultiWalletClaim.cycleGo, claimReward_envAB_A, claimReward_envAB_B,
      hcA, hcB, MultiWalletClaim.selectProxy]
    rfl

/-- Claim C2: with credentials `[A, B]`, no proxies, every chain call
succeeding, zero availability for `A` and positive availability for `B`,
the cycle yields `SkippedAlreadyClaimed` for `A` and `Success` for `B`,
the success log gains exactly one entry (B's), and the cycle stats are
`success = 1`, `skipped = 1`, `failed = 0`, `total = 2` — for every
shuffle outcome. -/
theorem claim2_end_to_end (ts : String) (js : Nat → Nat) :
    ((MultiWalletClaim.runClaimCycle MultiWalletClaim.config ts ["A", "B"] []
        envAB recheckAB js).attempts.map (fun a => (a.key, a.outcome))
          = [("B", .Success), ("A", .SkippedAlreadyClaimed)] ∨
      (MultiWalletClaim.runClaimCycle MultiWalletClaim.config ts ["A", "B"] []
        envAB recheckAB js).attempts.map (fun a => (a.key, a.outcome))
          = [("A", .SkippedAlreadyClaimed), ("B", .Success)]) ∧
    (MultiWalletClaim.runClaimCycle MultiWalletClaim.config ts ["A", "B"] []
      envAB recheckAB js).successLog.map (fun e => e.address) = ["B"] ∧
    (MultiWalletClaim.runClaimCycle MultiWalletClaim.config ts ["A", "B"] []
      envAB recheckAB js).successCount = 1 ∧
    (MultiWalletClaim.runClaimCycle MultiWalletClaim.config ts ["A", "B"] []
      envAB recheckAB js).skippedCount = 1 ∧
    (MultiWalletClaim.runClaimCycle MultiWalletClaim.config ts ["A", "B"] []
      envAB recheckAB js).failCount = 0 ∧
    (MultiWalletClaim.runClaimCycle MultiWalletClaim.config ts ["A", "B"] []
      envAB recheckAB js).totalWallets = 2 := by
  rcases cycle_envAB_shuffled ts js with h | h <;> rw [h]
  · exact ⟨Or.inl rfl, rfl, rfl, rfl, rfl, rfl⟩
  · exact ⟨Or.inr rfl, rfl, rfl, rfl, rfl, rfl⟩

end Web3Claim
